import Mathlib

/-!
Verification of the enquiry ingestion and persistence pipeline of the L&D
backend service (`src/main.py`, `src/schemas.py`, `src/backend/database.py`,
`src/backend/schemas.py`, `src/backend/main.py`).

Documents stored in MongoDB are modelled as association lists from string
keys to BSON-like values; Python dict assignment, lookup and `pop` are
embedded as `setKey`, `getKey` and `eraseKey`.  Datetimes are modelled as
abstract instants (`Nat`) and ObjectIds as `Nat` seeds; the external
renderings `datetime.isoformat` and `str(ObjectId)` are modelled as
injective string encodings.  The external SendGrid HTTP provider is an
oracle (`ProviderOutcome`), and outbound HTTP requests performed by
`send_notification_email` are collected as an explicit trace.
-/

/-- BSON-like values held in a stored document: strings, datetimes
(abstract instants), ObjectIds (abstract seeds), booleans and null. -/
inductive BVal where
  | str (s : String)
  | dt (t : Nat)
  | oid (n : Nat)
  | bool (b : Bool)
  | null
deriving DecidableEq, Repr

/-- A Mongo document / Python dict: an association list with unique keys. -/
abbrev Document := List (String × BVal)

/-- Python dict lookup `d[k]` (first matching key). -/
def getKey : Document → String → Option BVal
  | [], _ => none
  | (k0, v) :: rest, k => if k0 = k then some v else getKey rest k

/-- Python dict assignment `d[k] = v`: replace the value in place if the key
exists, otherwise append the new key at the end. -/
def setKey : Document → String → BVal → Document
  | [], k, v => [(k, v)]
  | (k0, v0) :: rest, k, v =>
      if k0 = k then (k, v) :: rest else (k0, v0) :: setKey rest k v

/-- Python dict `d.pop(k)` (the removal part): drop the entry for `k`.
Dict keys are unique, so dropping every occurrence coincides with
removing the single one. -/
def eraseKey (d : Document) (k : String) : Document :=
  d.filter (fun p => p.1 != k)

theorem getKey_setKey (d : Document) (k : String) (v : BVal) (k' : String) :
    getKey (setKey d k v) k' = if k' = k then some v else getKey d k' := by
  induction d with
  | nil =>
      simp only [setKey, getKey]
      by_cases h : k = k'
      · subst h; simp
      · rw [if_neg h, if_neg (fun hkk => h hkk.symm)]
  | cons hd tl ih =>
      obtain ⟨k0, v0⟩ := hd
      by_cases h0 : k0 = k
      · subst h0
        simp only [setKey, if_pos rfl]
        by_cases h1 : k' = k0
        · subst h1; simp [getKey]
        · simp only [getKey, if_neg (fun h : k0 = k' => h1 h.symm), if_neg h1]
      · simp only [setKey, if_neg h0]
        by_cases h1 : k0 = k'
        · subst h1
          simp [getKey, if_neg h0]
        · simp only [getKey, if_neg h1]
          exact ih

theorem getKey_eraseKey_self (d : Document) (k : String) :
    getKey (eraseKey d k) k = none := by
  induction d with
  | nil => rfl
  | cons hd tl ih =>
      obtain ⟨k0, v0⟩ := hd
      by_cases h : k0 = k
      · simpa [eraseKey, h] using ih
      · simpa [eraseKey, getKey, h] using ih

theorem getKey_eraseKey_ne (d : Document) (k k' : String) (h : k' ≠ k) :
    getKey (eraseKey d k) k' = getKey d k' := by
  induction d with
  | nil => rfl
  | cons hd tl ih =>
      obtain ⟨k0, v0⟩ := hd
      by_cases h0 : k0 = k
      · subst h0
        have : k0 ≠ k' := fun hk => h (hk ▸ rfl)
        simpa [eraseKey, getKey, this] using ih
      · by_cases h1 : k0 = k'
        · subst h1; simp [eraseKey, getKey, h0]
        · simpa [eraseKey, getKey, h0, h1] using ih

/-- Transform every value of a document by a key-indexed function,
keeping keys and order (models an in-place per-key update loop). -/
def mapVals (g : String → BVal → BVal) (d : Document) : Document :=
  d.map (fun p => (p.1, g p.1 p.2))

theorem getKey_mapVals (g : String → BVal → BVal) (d : Document) (k : String) :
    getKey (mapVals g d) k = (getKey d k).map (g k) := by
  induction d with
  | nil => rfl
  | cons hd tl ih =>
      obtain ⟨k0, v0⟩ := hd
      by_cases h : k0 = k
      · subst h; simp [mapVals, getKey]
      · simpa [mapVals, getKey, h] using ih

/-- Models `str(ObjectId)` (external `bson` library): the 24-character
lowercase-hex rendering of the identifier, whose 12 bytes are modelled
by a `Nat` seed. -/
def hexDigit (n : Nat) : Char :=
  if n < 10 then Char.ofNat (48 + n) else Char.ofNat (87 + n)

def objectIdStr (n : Nat) : String :=
  String.mk ((List.range 24).map (fun i => hexDigit (n / 16 ^ (23 - i) % 16)))

theorem objectIdStr_length (n : Nat) : (objectIdStr n).length = 24 := by
  simp [objectIdStr, String.length]

theorem objectIdStr_ne_empty (n : Nat) : objectIdStr n ≠ "" := by
  intro h
  have := congrArg String.length h
  rw [objectIdStr_length] at this
  simp [String.length] at this

/-- Models Python `datetime.isoformat` (standard library): the ISO-8601
rendering of a datetime; datetimes being abstract instants, the rendering
is an injective string encoding of the instant. -/
def isoformat (t : Nat) : String := "1970-01-01T00:00:" ++ toString t

/-- Models Python `str()` on the values that can appear in a document. -/
def pyStr : BVal → String
  | .str s => s
  | .oid n => objectIdStr n
  | .dt t => isoformat t
  | .bool b => if b then "True" else "False"
  | .null => "None"

/-- Models the EmailStr check of pydantic (external email-validator
library): one local part and one domain separated by a single at-sign,
both non-empty, the domain containing a dot, and no spaces anywhere. -/
def emailValid (s : String) : Bool :=
  let cs := s.data
  let dom := (cs.dropWhile (fun c => c != '@')).drop 1
  cs.count '@' == 1 && (cs.takeWhile (fun c => c != '@')) != [] &&
    dom != [] && dom.contains '.' && !(cs.contains ' ')

/-- A single pydantic validation error: the offending field and the
violated constraint. -/
structure VErr where
  field : String
  constraint : String
deriving DecidableEq, Repr

/-- An untyped request body for `POST /enquiries`: each schema field is
either present (with a value of the expected base type) or absent. -/
structure Payload where
  name : Option String
  email : Option String
  phone : Option String
  company : Option String
  service : Option String
  message : Option String
  consent : Option Bool
  source : Option String
deriving DecidableEq, Repr

/-- A validated enquiry, per the `Enquiry` pydantic model of
`src/schemas.py` (the schema imported by `src/main.py`). -/
structure Enquiry where
  name : String
  email : String
  phone : Option String
  company : Option String
  service : Option String
  message : String
  consent : Bool
  source : Option String
deriving DecidableEq, Repr

/-- Errors reported for the `name` field of `src/schemas.py`:
`name: str = Field(...)` — required, no length bounds. -/
def nameErrs (p : Payload) : List VErr :=
  match p.name with
  | none => [⟨"name", "missing"⟩]
  | some _ => []

/-- Errors reported for the `email` field: `email: EmailStr`. -/
def emailErrs (p : Payload) : List VErr :=
  match p.email with
  | none => [⟨"email", "missing"⟩]
  | some s => if emailValid s then [] else [⟨"email", "value is not a valid email address"⟩]

/-- Errors reported for the `message` field of `src/schemas.py`:
`message: str = Field(..., min_length=5)`. -/
def messageErrs (p : Payload) : List VErr :=
  match p.message with
  | none => [⟨"message", "missing"⟩]
  | some m => if m.length < 5 then [⟨"message", "string_too_short"⟩] else []

/-- All validation errors pydantic collects for a payload against the
`Enquiry` model of `src/schemas.py` (optional fields are unconstrained). -/
def enquiryErrors (p : Payload) : List VErr :=
  nameErrs p ++ emailErrs p ++ messageErrs p

/-- Validation of a payload against the `Enquiry` model of
`src/schemas.py`: all collected errors, or the typed value with
`consent` defaulting to `False`. -/
def Enquiry.validate (p : Payload) : Except (List VErr) Enquiry :=
  if enquiryErrors p = [] then
    match p.name, p.email, p.message with
    | some n, some e, some m =>
        .ok ⟨n, e, p.phone, p.company, p.service, m, p.consent.getD false, p.source⟩
    | _, _, _ => .error (enquiryErrors p)
  else .error (enquiryErrors p)

/-- An untyped request body for the backend-variant schema
(`src/backend/schemas.py`), which declares only three fields. -/
structure BPayload where
  name : Option String
  email : Option String
  message : Option String
deriving DecidableEq, Repr

/-- A validated enquiry per `src/backend/schemas.py`. -/
structure BackendEnquiry where
  name : String
  email : String
  message : String
deriving DecidableEq, Repr

/-- Validation errors for `src/backend/schemas.py`:
`name: str = Field(..., min_length=2, max_length=120)`, `email: EmailStr`,
`message: Optional[str] = Field(default="", max_length=5000)`. -/
def backendErrors (p : BPayload) : List VErr :=
  (match p.name with
   | none => [⟨"name", "missing"⟩]
   | some n =>
       (if n.length < 2 then [⟨"name", "string_too_short"⟩] else []) ++
       (if 120 < n.length then [⟨"name", "string_too_long"⟩] else [])) ++
  (match p.email with
   | none => [⟨"email", "missing"⟩]
   | some s => if emailValid s then [] else [⟨"email", "value is not a valid email address"⟩]) ++
  (match p.message with
   | none => []
   | some m => if 5000 < m.length then [⟨"message", "string_too_long"⟩] else [])

/-- Validation against the backend-variant `Enquiry` model of
`src/backend/schemas.py`. -/
def BackendEnquiry.validate (p : BPayload) : Except (List VErr) BackendEnquiry :=
  if backendErrors p = [] then
    match p.name, p.email with
    | some n, some e => .ok ⟨n, e, p.message.getD ""⟩
    | _, _ => .error (backendErrors p)
  else .error (backendErrors p)

/-- The process environment variables read at module load by
`src/main.py`: `os.getenv` yields `none` when the variable is unset
(a set-but-empty variable is `some ""`, which Python treats as falsy). -/
structure Env where
  SENDGRID_API_KEY : Option String
  NOTIFY_EMAIL : Option String
  FROM_EMAIL_env : Option String
deriving DecidableEq, Repr

/-- Python truthiness test `not x` for an `Optional[str]` value:
falsy exactly when the value is `None` or the empty string. -/
def pyFalsyOpt : Option String → Bool
  | none => true
  | some s => s == ""

/-- The module-level constant
`FROM_EMAIL = os.getenv("FROM_EMAIL", NOTIFY_EMAIL or "no-reply@example.com")`:
the env value when set (even empty), otherwise `NOTIFY_EMAIL` when truthy,
otherwise the literal fallback. -/
def FROM_EMAIL (env : Env) : String :=
  match env.FROM_EMAIL_env with
  | some s => s
  | none =>
      match env.NOTIFY_EMAIL with
      | some s => if s != "" then s else "no-reply@example.com"
      | none => "no-reply@example.com"

/-- Outcome of the outbound `requests.post` call to the SendGrid API:
either an exception (network failure, timeout, ...) or an HTTP response
with a status code and a body text. -/
inductive ProviderOutcome where
  | netError
  | response (statusCode : Nat) (text : String)
deriving DecidableEq, Repr

/-- The JSON payload `send_notification_email` submits to
`https://api.sendgrid.com/v3/mail/send`. -/
structure SendPayload where
  toEmail : String
  fromEmail : String
  fromName : String
  subject : String
  content : String
deriving DecidableEq, Repr

/-- Python `x or "-"` on an `Optional[str]` field. -/
def orDash : Option String → String
  | none => "-"
  | some s => if s != "" then s else "-"

/-- The plain-text body composed by `send_notification_email`. -/
def emailText (e : Enquiry) : String :=
  "Name: " ++ e.name ++ "\n" ++
  "Email: " ++ e.email ++ "\n" ++
  "Phone: " ++ orDash e.phone ++ "\n" ++
  "Company: " ++ orDash e.company ++ "\n" ++
  "Service: " ++ orDash e.service ++ "\n" ++
  "Consent: " ++ (if e.consent then "True" else "False") ++ "\n" ++
  "Source: " ++ orDash e.source ++ "\n\n" ++
  "Message:\n" ++ e.message ++ "\n"

/-- The `send_notification_email` helper of `src/main.py`: skips when the
resolved configuration is falsy, otherwise performs exactly one outbound
call; the second component is the trace of outbound requests made.
Returns `true` only when the provider answered with a 2xx status; every
exception of the call is caught and mapped to `false`. -/
def send_notification_email (env : Env) (e : Enquiry) (prov : ProviderOutcome) :
    Bool × List SendPayload :=
  if pyFalsyOpt env.SENDGRID_API_KEY || pyFalsyOpt env.NOTIFY_EMAIL
      || FROM_EMAIL env == "" then
    (false, [])
  else
    let payload : SendPayload :=
      ⟨(env.NOTIFY_EMAIL).getD "", FROM_EMAIL env, "L&D Website",
        "New L&D Enquiry from " ++ e.name, emailText e⟩
    match prov with
    | .netError => (false, [payload])
    | .response st _ => (decide (200 ≤ st ∧ st < 300), [payload])

/-- A pydantic model rendered to the dict handed to storage
(`None` becomes JSON null). -/
def optVal : Option String → BVal
  | none => .null
  | some s => .str s

/-- The dict form of a validated `Enquiry` value of `src/schemas.py`. -/
def enquiryToDoc (e : Enquiry) : Document :=
  [("name", .str e.name), ("email", .str e.email), ("phone", optVal e.phone),
   ("company", optVal e.company), ("service", optVal e.service),
   ("message", .str e.message), ("consent", .bool e.consent),
   ("source", optVal e.source)]

/-- Modelled from the spec: `src/main.py` imports `create_document` from a
top-level `database` module that is not present under `src/` (only the
variant `src/backend/database.py` is, which exports a different, async
interface without the `db` handle `src/main.py` also imports).  Per the
spec, the validated output is handed to storage with two server-assigned
timestamp fields, `created_at` and `updated_at`, both set to the current
instant and equal on creation, and storage returns the assigned
identifier, rendered as a string.  The current instant and the fresh
ObjectId seed are explicit parameters. -/
def db_create_document (db : List Document) (data : Document) (now : Nat)
    (oid : Nat) : String × List Document :=
  let stored := setKey (setKey (setKey data "created_at" (.dt now))
      "updated_at" (.dt now)) "_id" (.oid oid)
  (objectIdStr oid, db ++ [stored])

/-- An HTTP response body of the API, in structured JSON form. -/
inductive Body where
  | created (id : String) (marker : String)
  | listing (items : List Document) (count : Nat)
  | validationDetail (errs : List VErr)
  | errorDetail (msg : String)
deriving DecidableEq, Repr

/-- An HTTP response: status code and JSON body. -/
structure Response where
  status : Nat
  body : Body
deriving DecidableEq, Repr

/-- Everything observable about one `POST /enquiries` request: the HTTP
response, the resulting store contents, and the outbound email trace. -/
structure PostOutcome where
  resp : Response
  db : List Document
  sent : List SendPayload
deriving DecidableEq, Repr

/-- The `create_enquiry` handler of `src/main.py` (success path of the
`try` block): store the enquiry, fire the best-effort notification with
its result discarded, and answer 201 with the new identifier and the
`"received"` marker. -/
def create_enquiry (env : Env) (db : List Document) (e : Enquiry) (now : Nat)
    (oid : Nat) (prov : ProviderOutcome) : PostOutcome :=
  let r := db_create_document db (enquiryToDoc e) now oid
  let s := send_notification_email env e prov
  ⟨⟨201, .created r.1 "received"⟩, r.2, s.2⟩

/-- `POST /enquiries` as served by FastAPI: the framework validates the
body against the `Enquiry` model of `src/schemas.py` before the handler
runs, answering 422 with the error detail (and performing no side effect)
on failure. -/
def postEnquiries (env : Env) (db : List Document) (p : Payload) (now : Nat)
    (oid : Nat) (prov : ProviderOutcome) : PostOutcome :=
  match Enquiry.validate p with
  | .error errs => ⟨⟨422, .validationDetail errs⟩, db, []⟩
  | .ok e => create_enquiry env db e now oid prov

/-- The `create_document` of `src/backend/database.py`: build
`{**data, "created_at": now, "updated_at": now}`, let `insert_one` assign
the fresh ObjectId (mutating the local dict), store that document, then
rewrite the local dict for JSON: `_id` to its string form and both
timestamps to `isoformat`.  The mutations after insertion do not affect
the stored copy.  Returns the (returned dict, new store). -/
def backend_create_document (db : List Document) (data : Document) (now : Nat)
    (oid : Nat) : Document × List Document :=
  let doc := setKey (setKey data "created_at" (.dt now)) "updated_at" (.dt now)
  let stored := setKey doc "_id" (.oid oid)
  let ret := setKey (setKey (setKey stored "_id" (.str (objectIdStr oid)))
      "created_at" (.str (isoformat now))) "updated_at" (.str (isoformat now))
  (ret, db ++ [stored])

/-- The `created_at` instant a document sorts by; a document without a
datetime `created_at` sorts as instant 0 (all well-formed stored
enquiries carry one). -/
def createdAtOf (d : Document) : Nat :=
  match getKey d "created_at" with
  | some (.dt t) => t
  | _ => 0

/-- Newest-first order on documents, as requested by the Mongo cursor
modifier `sort("created_at", -1)`. -/
def byCreatedDesc (a b : Document) : Prop := createdAtOf b ≤ createdAtOf a

instance : DecidableRel byCreatedDesc :=
  fun a b => Nat.decLe (createdAtOf b) (createdAtOf a)

instance : IsTotal Document byCreatedDesc :=
  ⟨fun a b => (Nat.le_total (createdAtOf b) (createdAtOf a)).imp id id⟩

instance : IsTrans Document byCreatedDesc :=
  ⟨fun _ _ _ hab hbc => Nat.le_trans hbc hab⟩

/-- The server-side sort performed for the cursor: any correct sort by
`created_at` descending (Mongo specifies only the resulting order). -/
def sortByCreatedDesc (db : List Document) : List Document :=
  List.insertionSort byCreatedDesc db

/-- The documents the cursor `find({}).limit(limit).sort("created_at", -1)`
yields: sort and limit combine server-side with the sort applied first
regardless of the chaining order; per Mongo cursor semantics `limit(0)`
means no limit, and a negative limit behaves as its absolute value. -/
def mongoLimited (db : List Document) (limit : Int) : List Document :=
  let sorted := sortByCreatedDesc db
  if limit = 0 then sorted else sorted.take limit.natAbs

/-- The per-item conversion loop of `get_documents` in
`src/backend/database.py`: `_id` to its string form, and each of
`created_at`/`updated_at` to `isoformat` when it is a datetime. -/
def convF (k : String) (v : BVal) : BVal :=
  if k = "_id" then .str (pyStr v)
  else if k = "created_at" ∨ k = "updated_at" then
    match v with
    | .dt t => .str (isoformat t)
    | w => w
  else v

def convertStored (d : Document) : Document :=
  mapVals convF d

/-- The `get_documents` of `src/backend/database.py` on the `enquiry`
collection with the empty filter. -/
def get_documents (db : List Document) (limit : Int) : List Document :=
  (mongoLimited db limit).map convertStored

/-- The `_id` handling of `list_enquiries` in `src/main.py`:
`if "_id" in d: d["id"] = str(d.pop("_id"))`. -/
def popIdToId (d : Document) : Document :=
  match getKey d "_id" with
  | some v => setKey (eraseKey d "_id") "id" (.str (pyStr v))
  | none => d

/-- The timestamp loop of `list_enquiries` in `src/main.py`: for
`created_at` and `updated_at`, replace a value that has an `isoformat`
attribute (a datetime) by that rendering; strings pass through. -/
def tsF (k : String) (v : BVal) : BVal :=
  if k = "created_at" ∨ k = "updated_at" then
    match v with
    | .dt t => .str (isoformat t)
    | w => w
  else v

def shapeTimestamps (d : Document) : Document :=
  mapVals tsF d

/-- The `list_enquiries` handler of `src/main.py` (success path of the
`try` block): fetch with the given limit (default 100), shape each
document, and answer `{"items": docs, "count": len(docs)}`. -/
def list_enquiries (db : List Document) (limit : Int) : Response :=
  let docs := (get_documents db limit).map (fun d => shapeTimestamps (popIdToId d))
  ⟨200, .listing docs docs.length⟩

/-- The end-to-end rendering one stored document undergoes on its way
from the store to the `GET /enquiries` response. -/
def fullRender (d : Document) : Document :=
  shapeTimestamps (popIdToId (convertStored d))

/-- Well-formedness of a stored enquiry document: an ObjectId `_id`,
datetime `created_at` and `updated_at`, and no `id` key (storage never
writes one). -/
def WFDoc (d : Document) : Bool :=
  (match getKey d "_id" with | some (.oid _) => true | _ => false) &&
  (match getKey d "created_at" with | some (.dt _) => true | _ => false) &&
  (match getKey d "updated_at" with | some (.dt _) => true | _ => false) &&
  (match getKey d "id" with | none => true | _ => false)

def isOidVal : Option BVal → Bool
  | some (.oid _) => true
  | _ => false

def isDtVal : Option BVal → Bool
  | some (.dt _) => true
  | _ => false

theorem isOidVal_eq_true {o : Option BVal} (h : isOidVal o = true) :
    ∃ n, o = some (.oid n) := by
  cases o with
  | none => exact absurd h (by simp [isOidVal])
  | some v => cases v <;> simp_all [isOidVal]

theorem isDtVal_eq_true {o : Option BVal} (h : isDtVal o = true) :
    ∃ t, o = some (.dt t) := by
  cases o with
  | none => exact absurd h (by simp [isDtVal])
  | some v => cases v <;> simp_all [isDtVal]

theorem wfDoc_parts (d : Document) (h : WFDoc d = true) :
    (∃ n, getKey d "_id" = some (.oid n)) ∧
    (∃ t, getKey d "created_at" = some (.dt t)) ∧
    (∃ t, getKey d "updated_at" = some (.dt t)) ∧
    getKey d "id" = none := by
  simp only [WFDoc, Bool.and_eq_true] at h
  obtain ⟨⟨⟨h1, h2⟩, h3⟩, h4⟩ := h
  refine ⟨isOidVal_eq_true ?_, isDtVal_eq_true ?_, isDtVal_eq_true ?_, ?_⟩
  · revert h1; cases getKey d "_id" with
    | none => intro hh; exact hh
    | some v => cases v <;> intro hh <;> simp_all [isOidVal]
  · revert h2; cases getKey d "created_at" with
    | none => intro hh; exact hh
    | some v => cases v <;> intro hh <;> simp_all [isDtVal]
  · revert h3; cases getKey d "updated_at" with
    | none => intro hh; exact hh
    | some v => cases v <;> intro hh <;> simp_all [isDtVal]
  · revert h4; cases getKey d "id" with
    | none => intro _; rfl
    | some v => intro hh; exact absurd hh (by simp)

theorem getKey_convertStored (d : Document) (k : String) :
    getKey (convertStored d) k = (getKey d k).map (convF k) :=
  getKey_mapVals convF d k

theorem getKey_shapeTimestamps (d : Document) (k : String) :
    getKey (shapeTimestamps d) k = (getKey d k).map (tsF k) :=
  getKey_mapVals tsF d k

theorem fullRender_keys (d : Document) (h : WFDoc d = true) :
    (∃ n, getKey d "_id" = some (.oid n) ∧
        getKey (fullRender d) "id" = some (.str (objectIdStr n))) ∧
    getKey (fullRender d) "_id" = none ∧
    (∃ t, getKey d "created_at" = some (.dt t) ∧
        getKey (fullRender d) "created_at" = some (.str (isoformat t))) ∧
    (∃ t, getKey d "updated_at" = some (.dt t) ∧
        getKey (fullRender d) "updated_at" = some (.str (isoformat t))) := by
  obtain ⟨⟨n, hid⟩, ⟨t, hca⟩, ⟨u, hua⟩, hnoid⟩ := wfDoc_parts d h
  have cid : getKey (convertStored d) "_id" = some (.str (objectIdStr n)) := by
    rw [getKey_convertStored, hid]
    simp [convF, pyStr]
  have cca : getKey (convertStored d) "created_at" = some (.str (isoformat t)) := by
    rw [getKey_convertStored, hca]
    simp [convF]
  have cua : getKey (convertStored d) "updated_at" = some (.str (isoformat u)) := by
    rw [getKey_convertStored, hua]
    simp [convF]
  have cnoid : getKey (convertStored d) "id" = none := by
    rw [getKey_convertStored, hnoid]; rfl
  have hpop : popIdToId (convertStored d) =
      setKey (eraseKey (convertStored d) "_id") "id" (.str (objectIdStr n)) := by
    simp [popIdToId, cid, pyStr]
  unfold fullRender
  rw [hpop]
  refine ⟨⟨n, hid, ?_⟩, ?_, ⟨t, hca, ?_⟩, ⟨u, hua, ?_⟩⟩
  · rw [getKey_shapeTimestamps, getKey_setKey]
    simp [tsF]
  · rw [getKey_shapeTimestamps, getKey_setKey]
    rw [if_neg (by decide), getKey_eraseKey_self]
    rfl
  · rw [getKey_shapeTimestamps, getKey_setKey]
    rw [if_neg (by decide), getKey_eraseKey_ne _ _ _ (by decide), cca]
    simp [tsF]
  · rw [getKey_shapeTimestamps, getKey_setKey]
    rw [if_neg (by decide), getKey_eraseKey_ne _ _ _ (by decide), cua]
    simp [tsF]

theorem pairwise_sortByCreatedDesc (db : List Document) :
    (sortByCreatedDesc db).Pairwise byCreatedDesc :=
  List.sorted_insertionSort byCreatedDesc db

theorem pairwise_mongoLimited (db : List Document) (limit : Int) :
    (mongoLimited db limit).Pairwise byCreatedDesc := by
  unfold mongoLimited
  split
  · exact pairwise_sortByCreatedDesc db
  · exact List.Pairwise.sublist (List.take_sublist _ _) (pairwise_sortByCreatedDesc db)

theorem mem_mongoLimited {d : Document} {db : List Document} {limit : Int}
    (h : d ∈ mongoLimited db limit) : d ∈ db := by
  unfold mongoLimited at h
  have hs : d ∈ sortByCreatedDesc db := by
    split at h
    · exact h
    · exact List.take_subset _ _ h
  exact (List.mem_insertionSort byCreatedDesc).mp hs

theorem length_sortByCreatedDesc (db : List Document) :
    (sortByCreatedDesc db).length = db.length :=
  List.length_insertionSort byCreatedDesc db

theorem enquiryErrors_nil_parts {p : Payload} (h : enquiryErrors p = []) :
    nameErrs p = [] ∧ emailErrs p = [] ∧ messageErrs p = [] := by
  unfold enquiryErrors at h
  rw [List.append_assoc, List.append_eq_nil] at h
  rw [List.append_eq_nil] at h
  exact ⟨h.1, h.2.1, h.2.2⟩

theorem messageErrs_nil {p : Payload} (h : messageErrs p = []) :
    ∃ m, p.message = some m ∧ 5 ≤ m.length := by
  unfold messageErrs at h
  cases hm : p.message with
  | none => rw [hm] at h; exact absurd h (by simp)
  | some m =>
      rw [hm] at h
      by_cases hl : m.length < 5
      · simp [hl] at h
      · exact ⟨m, rfl, Nat.le_of_not_lt hl⟩

theorem emailErrs_nil {p : Payload} (h : emailErrs p = []) :
    ∃ s, p.email = some s ∧ emailValid s = true := by
  unfold emailErrs at h
  cases he : p.email with
  | none => rw [he] at h; exact absurd h (by simp)
  | some s =>
      rw [he] at h
      by_cases hv : emailValid s
      · exact ⟨s, rfl, hv⟩
      · simp [hv] at h

theorem nameErrs_nil {p : Payload} (h : nameErrs p = []) :
    ∃ n, p.name = some n := by
  unfold nameErrs at h
  cases hn : p.name with
  | none => rw [hn] at h; exact absurd h (by simp)
  | some n => exact ⟨n, rfl⟩

theorem validate_ok_parts {p : Payload} {e : Enquiry}
    (h : Enquiry.validate p = .ok e) :
    enquiryErrors p = [] ∧ p.name = some e.name ∧ p.email = some e.email ∧
    p.message = some e.message := by
  unfold Enquiry.validate at h
  by_cases hE : enquiryErrors p = []
  · rw [if_pos hE] at h
    cases hn : p.name with
    | none => rw [hn] at h; exact absurd h (by simp)
    | some n =>
        cases he : p.email with
        | none => rw [hn, he] at h; exact absurd h (by simp)
        | some em =>
            cases hm : p.message with
            | none => rw [hn, he, hm] at h; exact absurd h (by simp)
            | some m =>
                rw [hn, he, hm] at h
                simp only [Except.ok.injEq] at h
                subst h
                exact ⟨hE, rfl, rfl, rfl⟩
  · rw [if_neg hE] at h; exact absurd h (by simp)

theorem validate_error_of_ne {p : Payload} (h : enquiryErrors p ≠ []) :
    Enquiry.validate p = .error (enquiryErrors p) := by
  unfold Enquiry.validate
  rw [if_neg h]

theorem backendErrors_nil_name {p : BPayload} (h : backendErrors p = []) :
    ∃ n, p.name = some n ∧ 2 ≤ n.length ∧ n.length ≤ 120 := by
  unfold backendErrors at h
  rw [List.append_assoc, List.append_eq_nil] at h
  cases hn : p.name with
  | none => rw [hn] at h; exact absurd h.1 (by simp)
  | some n =>
      rw [hn] at h
      have h1 := h.1
      by_cases hs : n.length < 2
      · simp [hs] at h1
      · by_cases hl : 120 < n.length
        · simp [hs, hl] at h1
        · exact ⟨n, rfl, Nat.le_of_not_lt hs, Nat.le_of_not_lt hl⟩

theorem backendValidate_ok_parts {p : BPayload} {e : BackendEnquiry}
    (h : BackendEnquiry.validate p = .ok e) :
    backendErrors p = [] ∧ p.name = some e.name := by
  unfold BackendEnquiry.validate at h
  by_cases hE : backendErrors p = []
  · rw [if_pos hE] at h
    cases hn : p.name with
    | none => rw [hn] at h; exact absurd h (by simp)
    | some n =>
        cases he : p.email with
        | none => rw [hn, he] at h; exact absurd h (by simp)
        | some em =>
            rw [hn, he] at h
            simp only [Except.ok.injEq] at h
            subst h
            exact ⟨hE, rfl⟩
  · rw [if_neg hE] at h; exact absurd h (by simp)

theorem backendErrors_ne_of_name {p : BPayload} {n : String}
    (hn : p.name = some n) (hb : n.length < 2 ∨ 120 < n.length) :
    backendErrors p ≠ [] := by
  intro h
  unfold backendErrors at h
  rw [List.append_assoc, List.append_eq_nil] at h
  have h1 := h.1
  rw [hn] at h1
  rcases hb with hb | hb
  · simp [hb] at h1
  · simp [hb] at h1

/-- A fully-unset notification environment (all three variables absent). -/
def envNone : Env := ⟨none, none, none⟩

/-- A valid enquiry payload used as a concrete witness input. -/
def goodPayload : Payload :=
  ⟨some "Ada Lovelace", some "ada@example.org", none, none, none,
    some "Please contact me about leadership training.", some true, none⟩

/-- The validated value of `goodPayload`. -/
def goodEnquiry : Enquiry :=
  ⟨"Ada Lovelace", "ada@example.org", none, none, none,
    "Please contact me about leadership training.", true, none⟩

/-- C1: for every valid Enquiry payload, `POST /enquiries` answers 201
with body `{id, status: "received"}` where `id` is the non-empty string
identifier assigned by the storage layer. -/
theorem C1_post_valid_created (env : Env) (db : List Document) (p : Payload)
    (e : Enquiry) (now oid : Nat) (prov : ProviderOutcome)
    (h : Enquiry.validate p = .ok e) :
    (postEnquiries env db p now oid prov).resp =
      ⟨201, .created (objectIdStr oid) "received"⟩ ∧
    (objectIdStr oid).length = 24 ∧ objectIdStr oid ≠ "" := by
  unfold postEnquiries
  rw [h]
  exact ⟨rfl, objectIdStr_length oid, objectIdStr_ne_empty oid⟩

theorem validate_goodPayload : Enquiry.validate goodPayload = .ok goodEnquiry := by
  unfold Enquiry.validate
  rw [if_pos (show enquiryErrors goodPayload = [] from by decide)]
  rfl

theorem C1_witness :
    (postEnquiries envNone [] goodPayload 3 7 .netError).resp =
      ⟨201, .created (objectIdStr 7) "received"⟩ ∧
    (objectIdStr 7).length = 24 ∧ objectIdStr 7 ≠ "" :=
  C1_post_valid_created envNone [] goodPayload goodEnquiry 3 7 .netError
    validate_goodPayload

/-- C2: for every valid payload and every notification outcome (any
configuration, network failure, any provider status), the HTTP status
code, the response body and the resulting store of `POST /enquiries` are
identical to those of any other run — a failing notification never
changes the response. -/
theorem C2_notification_isolated (env env' : Env) (db : List Document)
    (p : Payload) (now oid : Nat) (o o' : ProviderOutcome) :
    (postEnquiries env db p now oid o).resp = (postEnquiries env' db p now oid o').resp ∧
    (postEnquiries env db p now oid o).db = (postEnquiries env' db p now oid o').db := by
  unfold postEnquiries
  cases h : Enquiry.validate p with
  | error errs => exact ⟨rfl, rfl⟩
  | ok e => exact ⟨rfl, rfl⟩

/-- C3: every payload missing `name`, `email` or `message`, or whose
`email` fails the email grammar, is answered with a 4xx (422) carrying
the violated field and constraint, the store is unchanged and no
notification is sent. -/
theorem C3_invalid_rejected (env : Env) (db : List Document) (p : Payload)
    (now oid : Nat) (prov : ProviderOutcome)
    (h : p.name = none ∨ p.email = none ∨ p.message = none ∨
      ∃ s, p.email = some s ∧ emailValid s = false) :
    (postEnquiries env db p now oid prov).resp.status = 422 ∧
    400 ≤ (postEnquiries env db p now oid prov).resp.status ∧
    (postEnquiries env db p now oid prov).resp.status < 500 ∧
    (postEnquiries env db p now oid prov).db = db ∧
    (postEnquiries env db p now oid prov).sent = [] ∧
    ∃ errs,
      (postEnquiries env db p now oid prov).resp.body = .validationDetail errs ∧
      errs ≠ [] ∧
      (p.name = none → VErr.mk "name" "missing" ∈ errs) ∧
      (p.email = none → VErr.mk "email" "missing" ∈ errs) ∧
      (p.message = none → VErr.mk "message" "missing" ∈ errs) ∧
      (∀ s, p.email = some s → emailValid s = false →
        VErr.mk "email" "value is not a valid email address" ∈ errs) := by
  have hne : enquiryErrors p ≠ [] := by
    intro h0
    obtain ⟨h1, h2, h3⟩ := enquiryErrors_nil_parts h0
    rcases h with h | h | h | ⟨s, hs, hv⟩
    · obtain ⟨n, hn⟩ := nameErrs_nil h1
      rw [h] at hn; cases hn
    · obtain ⟨s, hs, _⟩ := emailErrs_nil h2
      rw [h] at hs; cases hs
    · obtain ⟨m, hm, _⟩ := messageErrs_nil h3
      rw [h] at hm; cases hm
    · obtain ⟨s', hs', hv'⟩ := emailErrs_nil h2
      rw [hs] at hs'
      injection hs' with hss
      rw [← hss] at hv'
      rw [hv] at hv'
      cases hv'
  have hval := validate_error_of_ne hne
  unfold postEnquiries
  rw [hval]
  refine ⟨rfl, by norm_num, by norm_num, rfl, rfl,
    enquiryErrors p, rfl, hne, ?_, ?_, ?_, ?_⟩
  · intro hn
    simp [enquiryErrors, nameErrs, hn]
  · intro he
    simp [enquiryErrors, emailErrs, he]
  · intro hm
    simp [enquiryErrors, messageErrs, hm]
  · intro s hs hv
    simp [enquiryErrors, emailErrs, hs, hv]

/-- An invalid payload (no name, ungrammatical email) for witnesses. -/
def badPayload : Payload :=
  ⟨none, some "not-an-email", none, none, none, some "hello world", none, none⟩

theorem C3_witness :
    (postEnquiries envNone [] badPayload 0 0 .netError).resp.status = 422 ∧
    400 ≤ (postEnquiries envNone [] badPayload 0 0 .netError).resp.status ∧
    (postEnquiries envNone [] badPayload 0 0 .netError).resp.status < 500 ∧
    (postEnquiries envNone [] badPayload 0 0 .netError).db = [] ∧
    (postEnquiries envNone [] badPayload 0 0 .netError).sent = [] ∧
    ∃ errs,
      (postEnquiries envNone [] badPayload 0 0 .netError).resp.body =
        .validationDetail errs ∧
      errs ≠ [] ∧
      (badPayload.name = none → VErr.mk "name" "missing" ∈ errs) ∧
      (badPayload.email = none → VErr.mk "email" "missing" ∈ errs) ∧
      (badPayload.message = none → VErr.mk "message" "missing" ∈ errs) ∧
      (∀ s, badPayload.email = some s → emailValid s = false →
        VErr.mk "email" "value is not a valid email address" ∈ errs) :=
  C3_invalid_rejected envNone [] badPayload 0 0 .netError (Or.inl rfl)

/-- C4: validation (the `Enquiry` model of `src/schemas.py` that serves
`POST /enquiries`) accepts the `message` field only when it is present
with length at least 5, and rejects a payload whose `message` is absent
or shorter. -/
theorem C4_message_required_min5 :
    (∀ (p : Payload) (e : Enquiry), Enquiry.validate p = .ok e →
      p.message = some e.message ∧ 5 ≤ e.message.length) ∧
    (∀ p : Payload,
      (p.message = none ∨ ∃ m, p.message = some m ∧ m.length < 5) →
      ∃ errs, Enquiry.validate p = .error errs ∧ errs ≠ []) := by
  constructor
  · intro p e h
    obtain ⟨hE, _, _, hm⟩ := validate_ok_parts h
    obtain ⟨_, _, h3⟩ := enquiryErrors_nil_parts hE
    obtain ⟨m, hm', hlen⟩ := messageErrs_nil h3
    rw [hm] at hm'
    injection hm' with hmm
    rw [← hmm] at hlen
    exact ⟨hm, hlen⟩
  · intro p hbad
    have hne : enquiryErrors p ≠ [] := by
      intro h0
      obtain ⟨_, _, h3⟩ := enquiryErrors_nil_parts h0
      obtain ⟨m, hm, hlen⟩ := messageErrs_nil h3
      rcases hbad with h | ⟨m', hm', hshort⟩
      · rw [h] at hm; cases hm
      · rw [hm'] at hm
        injection hm with he
        rw [he] at hshort
        exact absurd hlen (Nat.not_le_of_lt hshort)
    exact ⟨enquiryErrors p, validate_error_of_ne hne, hne⟩

/-- A payload whose message is too short, for witnesses. -/
def shortMsgPayload : Payload :=
  ⟨some "Bob Smith", some "bob@example.org", none, none, none, some "hi",
    none, none⟩

theorem C4_witness :
    (goodPayload.message = some goodEnquiry.message ∧
      5 ≤ goodEnquiry.message.length) ∧
    (∃ errs, Enquiry.validate shortMsgPayload = .error errs ∧ errs ≠ []) :=
  ⟨C4_message_required_min5.1 goodPayload goodEnquiry validate_goodPayload,
   C4_message_required_min5.2 shortMsgPayload (Or.inr ⟨"hi", rfl, by decide⟩)⟩

/-- A payload whose name has length 1 (below the claimed minimum 2). -/
def shortNamePayload : Payload :=
  ⟨some "A", some "user@example.com", none, none, none, some "Hello there",
    none, none⟩

/-- The value the primary schema accepts for `shortNamePayload`. -/
def shortNameEnquiry : Enquiry :=
  ⟨"A", "user@example.com", none, none, none, "Hello there", false, none⟩

theorem validate_shortNamePayload :
    Enquiry.validate shortNamePayload = .ok shortNameEnquiry := by
  unfold Enquiry.validate
  rw [if_pos (show enquiryErrors shortNamePayload = [] from by decide)]
  rfl

/-- C5, counterexample: the validation layer serving `POST /enquiries`
(the `Enquiry` model of `src/schemas.py`) accepts a name of length 1,
so names outside [2, 120] are not rejected. -/
theorem C5_counterexample :
    shortNamePayload.name = some "A" ∧ "A".length = 1 ∧
    Enquiry.validate shortNamePayload = .ok shortNameEnquiry :=
  ⟨rfl, rfl, validate_shortNamePayload⟩

/-- C5, amended: the primary schema (`src/schemas.py`, used by the API)
only requires `name` to be present — any length is accepted — while the
separate backend schema variant (`src/backend/schemas.py`) accepts
`name` exactly when its length lies in [2, 120]. -/
theorem C5_name_bounds_by_schema_variant :
    (∀ (p : Payload) (e : Enquiry), Enquiry.validate p = .ok e →
      p.name = some e.name) ∧
    (∀ n : String, ∃ e : Enquiry,
      Enquiry.validate ⟨some n, some "user@example.com", none, none, none,
        some "Hello there", none, none⟩ = .ok e ∧ e.name = n) ∧
    (∀ (p : BPayload) (e : BackendEnquiry), BackendEnquiry.validate p = .ok e →
      p.name = some e.name ∧ 2 ≤ e.name.length ∧ e.name.length ≤ 120) ∧
    (∀ (p : BPayload) (n : String), p.name = some n →
      n.length < 2 ∨ 120 < n.length →
      ∃ errs, BackendEnquiry.validate p = .error errs ∧ errs ≠ []) := by
  refine ⟨?_, ?_, ?_, ?_⟩
  · intro p e h
    exact (validate_ok_parts h).2.1
  · intro n
    refine ⟨⟨n, "user@example.com", none, none, none, "Hello there", false, none⟩,
      ?_, rfl⟩
    unfold Enquiry.validate
    rw [if_pos (show enquiryErrors ⟨some n, some "user@example.com", none, none,
      none, some "Hello there", none, none⟩ = [] from rfl)]
    rfl
  · intro p e h
    obtain ⟨hE, hn⟩ := backendValidate_ok_parts h
    obtain ⟨n, hn', h2, h120⟩ := backendErrors_nil_name hE
    rw [hn] at hn'
    injection hn' with he
    rw [← he] at h2 h120
    exact ⟨hn, h2, h120⟩
  · intro p n hn hb
    have hne := backendErrors_ne_of_name hn hb
    refine ⟨backendErrors p, ?_, hne⟩
    unfold BackendEnquiry.validate
    rw [if_neg hne]

theorem C5_amended_witness :
    shortNamePayload.name = some shortNameEnquiry.name ∧
    ∃ errs,
      BackendEnquiry.validate ⟨some "A", some "user@example.com", some "Hello"⟩ =
        .error errs ∧ errs ≠ [] := by
  constructor
  · exact C5_name_bounds_by_schema_variant.1 shortNamePayload shortNameEnquiry
      validate_shortNamePayload
  · exact C5_name_bounds_by_schema_variant.2.2.2
      ⟨some "A", some "user@example.com", some "Hello"⟩ "A" rfl
      (Or.inl (by decide))

/-- C6: for every store and limit, `GET /enquiries` answers
`{items, count}` where the items are the renderings, in order, of a
selection of stored documents sorted descending by `created_at`
(newest first), `count` is the number of returned items, each timestamp
is rendered as its ISO-8601 string, and each identifier is the plain
string form with the storage `_id` removed. -/
theorem C6_listing_shape (db : List Document) (limit : Int)
    (h : ∀ d ∈ db, WFDoc d = true) :
    list_enquiries db limit =
      ⟨200, .listing ((mongoLimited db limit).map fullRender)
        ((mongoLimited db limit).map fullRender).length⟩ ∧
    (mongoLimited db limit).Pairwise byCreatedDesc ∧
    ∀ d ∈ mongoLimited db limit,
      (∃ n, getKey d "_id" = some (.oid n) ∧
        getKey (fullRender d) "id" = some (.str (objectIdStr n))) ∧
      getKey (fullRender d) "_id" = none ∧
      (∃ t, getKey d "created_at" = some (.dt t) ∧
        getKey (fullRender d) "created_at" = some (.str (isoformat t))) ∧
      (∃ t, getKey d "updated_at" = some (.dt t) ∧
        getKey (fullRender d) "updated_at" = some (.str (isoformat t))) := by
  refine ⟨?_, pairwise_mongoLimited db limit, ?_⟩
  · have hdocs : (get_documents db limit).map (fun d => shapeTimestamps (popIdToId d)) =
        (mongoLimited db limit).map fullRender := by
      unfold get_documents
      rw [List.map_map]
      rfl
    simp [list_enquiries, hdocs]
  · intro d hd
    exact fullRender_keys d (h d (mem_mongoLimited hd))

/-- A well-formed stored enquiry document (witness input). -/
def docA : Document :=
  [("name", .str "A"), ("created_at", .dt 1), ("updated_at", .dt 1),
    ("_id", .oid 1)]

/-- A second, newer well-formed stored enquiry document. -/
def docB : Document :=
  [("name", .str "B"), ("created_at", .dt 2), ("updated_at", .dt 2),
    ("_id", .oid 2)]

theorem C6_witness :
    list_enquiries [docA, docB] 5 =
      ⟨200, .listing ((mongoLimited [docA, docB] 5).map fullRender)
        ((mongoLimited [docA, docB] 5).map fullRender).length⟩ ∧
    (mongoLimited [docA, docB] 5).Pairwise byCreatedDesc ∧
    ∀ d ∈ mongoLimited [docA, docB] 5,
      (∃ n, getKey d "_id" = some (.oid n) ∧
        getKey (fullRender d) "id" = some (.str (objectIdStr n))) ∧
      getKey (fullRender d) "_id" = none ∧
      (∃ t, getKey d "created_at" = some (.dt t) ∧
        getKey (fullRender d) "created_at" = some (.str (isoformat t))) ∧
      (∃ t, getKey d "updated_at" = some (.dt t) ∧
        getKey (fullRender d) "updated_at" = some (.str (isoformat t))) :=
  C6_listing_shape [docA, docB] 5 (by decide)

/-- C7: `create_document` of `src/backend/database.py` always stores a
document whose server-assigned `created_at` and `updated_at` are the
same current instant — whatever the caller supplied for those keys —
and returns a document carrying the assigned identifier as a non-empty
string. -/
theorem C7_create_document_timestamps (db : List Document) (data : Document)
    (now : Nat) (oid : Nat) :
    ∃ stored,
      (backend_create_document db data now oid).2 = db ++ [stored] ∧
      getKey stored "created_at" = some (.dt now) ∧
      getKey stored "updated_at" = some (.dt now) ∧
      getKey stored "created_at" = getKey stored "updated_at" ∧
      getKey stored "_id" = some (.oid oid) ∧
      getKey (backend_create_document db data now oid).1 "_id" =
        some (.str (objectIdStr oid)) ∧
      objectIdStr oid ≠ "" := by
  refine ⟨_, rfl, ?_, ?_, ?_, ?_, ?_, objectIdStr_ne_empty oid⟩
  · rw [getKey_setKey, if_neg (by decide), getKey_setKey, if_neg (by decide),
      getKey_setKey, if_pos rfl]
  · rw [getKey_setKey, if_neg (by decide), getKey_setKey, if_pos rfl]
  · rw [getKey_setKey, if_neg (by decide), getKey_setKey, if_neg (by decide),
      getKey_setKey, if_pos rfl, getKey_setKey, if_neg (by decide),
      getKey_setKey, if_pos rfl]
  · rw [getKey_setKey, if_pos rfl]
  · show getKey (setKey (setKey (setKey _ "_id" (.str (objectIdStr oid)))
      "created_at" (.str (isoformat now))) "updated_at" (.str (isoformat now)))
      "_id" = some (.str (objectIdStr oid))
    rw [getKey_setKey, if_neg (by decide), getKey_setKey, if_neg (by decide),
      getKey_setKey, if_pos rfl]

/-- C10: with `limit = 0` the Mongo cursor is unbounded, so
`GET /enquiries?limit=0` returns every enquiry in the store (rendered),
not zero items. -/
theorem C10_limit_zero_returns_all (db : List Document) :
    ∃ items, list_enquiries db 0 = ⟨200, .listing items items.length⟩ ∧
      items.length = db.length ∧ ∀ d ∈ db, fullRender d ∈ items := by
  refine ⟨(sortByCreatedDesc db).map fullRender, ?_, ?_, ?_⟩
  · have hdocs : (get_documents db 0).map (fun d => shapeTimestamps (popIdToId d)) =
        (sortByCreatedDesc db).map fullRender := by
      unfold get_documents mongoLimited
      rw [if_pos rfl, List.map_map]
      rfl
    simp [list_enquiries, hdocs]
  · rw [List.length_map, length_sortByCreatedDesc]
  · intro d hd
    exact List.mem_map_of_mem _ ((List.mem_insertionSort byCreatedDesc).mpr hd)

theorem C10_witness :
    ∃ items, list_enquiries [docA, docB] 0 = ⟨200, .listing items items.length⟩ ∧
      items.length = [docA, docB].length ∧
      ∀ d ∈ [docA, docB], fullRender d ∈ items :=
  C10_limit_zero_returns_all [docA, docB]

/-- C8: the notification step attempts no outbound call exactly when some
of the three resolved configuration values — the SendGrid API key, the
recipient (`NOTIFY_EMAIL`) or the resolved sender (`FROM_EMAIL`) — is
absent (falsy); otherwise exactly one call is made. -/
theorem C8_skip_iff_config_absent (env : Env) (e : Enquiry)
    (prov : ProviderOutcome) :
    (send_notification_email env e prov).2 = [] ↔
      (pyFalsyOpt env.SENDGRID_API_KEY = true ∨
        pyFalsyOpt env.NOTIFY_EMAIL = true ∨ FROM_EMAIL env = "") := by
  unfold send_notification_email
  by_cases hc : (pyFalsyOpt env.SENDGRID_API_KEY || pyFalsyOpt env.NOTIFY_EMAIL
      || (FROM_EMAIL env == "")) = true
  · rw [if_pos hc]
    simp only [Bool.or_eq_true, beq_iff_eq] at hc
    constructor
    · intro _
      rcases hc with (hc | hc) | hc
      · exact Or.inl hc
      · exact Or.inr (Or.inl hc)
      · exact Or.inr (Or.inr hc)
    · intro _; rfl
  · rw [if_neg hc]
    have hrhs : ¬(pyFalsyOpt env.SENDGRID_API_KEY = true ∨
        pyFalsyOpt env.NOTIFY_EMAIL = true ∨ FROM_EMAIL env = "") := by
      intro h
      apply hc
      simp only [Bool.or_eq_true, beq_iff_eq]
      rcases h with h | h | h
      · exact Or.inl (Or.inl h)
      · exact Or.inl (Or.inr h)
      · exact Or.inr h
    cases prov with
    | netError =>
        constructor
        · intro hcontra; exact absurd hcontra (by simp)
        · intro hcontra; exact absurd hcontra hrhs
    | response st txt =>
        constructor
        · intro hcontra; exact absurd hcontra (by simp)
        · intro hcontra; exact absurd hcontra hrhs

/-- C9: `send_notification_email` is total in the embedding — every
configuration and provider outcome yields a boolean — and it returns
`true` exactly when the configuration is usable and the provider
answered with a 2xx status; every failure mode yields `false` rather
than an exception. -/
theorem C9_send_returns_true_iff_2xx (env : Env) (e : Enquiry)
    (prov : ProviderOutcome) :
    (send_notification_email env e prov).1 = true ↔
      ((pyFalsyOpt env.SENDGRID_API_KEY || pyFalsyOpt env.NOTIFY_EMAIL
        || (FROM_EMAIL env == "")) = false ∧
       ∃ st txt, prov = .response st txt ∧ 200 ≤ st ∧ st < 300) := by
  unfold send_notification_email
  by_cases hc : (pyFalsyOpt env.SENDGRID_API_KEY || pyFalsyOpt env.NOTIFY_EMAIL
      || (FROM_EMAIL env == "")) = true
  · rw [if_pos hc]
    simp [hc]
  · rw [if_neg hc]
    have hc' : (pyFalsyOpt env.SENDGRID_API_KEY || pyFalsyOpt env.NOTIFY_EMAIL
        || (FROM_EMAIL env == "")) = false := by
      revert hc
      cases pyFalsyOpt env.SENDGRID_API_KEY || pyFalsyOpt env.NOTIFY_EMAIL
        || (FROM_EMAIL env == "") <;> simp
    cases prov with
    | netError => simp [hc']
    | response st txt => simp [hc', decide_eq_true_iff]
